import Mathlib

/-!
Shallow embedding of `internal/operator/operator.go` from the jsctl repository.

The Go package builds Kubernetes manifests for the Jetstack Secure operator:
a version catalog over embedded installer templates, an image-pull-secret
builder, an installer renderer (template substitution of an image registry),
an Installation custom-resource builder, and a status reader.

Conventions of the embedding:
- the embedded installer file set and the credential-file filesystem are
  passed explicitly as association lists `List (String × String)`
  (filename ↦ contents);
- Go errors are values of the inductive `GoErr`; `fmt.Errorf("...: %w", err)`
  wrapping is `GoErr.wrap`;
- fallible Go functions return `Except GoErr α`;
- `[]byte`/string bytes are `List Nat` (byte values; ASCII contents map to
  their code points via `strBytes`).
-/

namespace Operator

/-! ### Bytes, base64 (models `encoding/base64` StdEncoding) and JSON strings -/

/-- Byte view of a Go string (faithful for ASCII contents). -/
def strBytes (s : String) : List Nat :=
  s.data.map Char.toNat

/-- The standard base64 alphabet used by `base64.StdEncoding`. -/
def b64Alphabet : List Char :=
  ("ABCDEFGHIJKLMNOPQRSTUVWXYZabcdefghijklmnopqrstuvwxyz0123456789+/").data

/-- Character for a 6-bit group; out-of-range values fall back to padding. -/
def b64Char (n : Nat) : Char :=
  b64Alphabet.getD n ('=')

/-- Encode a byte list three bytes at a time, padding the final group. -/
def base64Chunks : List Nat → List Char
  | [] => []
  | [b1] => [b64Char (b1 / 4), b64Char (b1 % 4 * 16), '=', '=']
  | [b1, b2] => [b64Char (b1 / 4), b64Char (b1 % 4 * 16 + b2 / 16), b64Char (b2 % 16 * 4), '=']
  | b1 :: b2 :: b3 :: rest =>
      b64Char (b1 / 4) :: b64Char (b1 % 4 * 16 + b2 / 16) ::
        b64Char (b2 % 16 * 4 + b3 / 64) :: b64Char (b3 % 64) :: base64Chunks rest

/-- `base64.StdEncoding.EncodeToString`. -/
def base64Encode (bs : List Nat) : String :=
  String.mk (base64Chunks bs)

/-- Index of a character in the base64 alphabet. -/
def b64Val (c : Char) : Nat :=
  b64Alphabet.indexOf c

/-- Decode four base64 characters at a time, honouring `=` padding. -/
def base64DecodeChars : List Char → List Nat
  | c1 :: c2 :: c3 :: c4 :: rest =>
      if c3 = '=' then [b64Val c1 * 4 + b64Val c2 / 16]
      else if c4 = '=' then
        [b64Val c1 * 4 + b64Val c2 / 16, b64Val c2 % 16 * 16 + b64Val c3 / 4]
      else
        (b64Val c1 * 4 + b64Val c2 / 16) :: (b64Val c2 % 16 * 16 + b64Val c3 / 4) ::
          (b64Val c3 % 4 * 64 + b64Val c4) :: base64DecodeChars rest
  | _ => []

/-- `base64.StdEncoding.DecodeString` (restricted to well-padded input). -/
def base64Decode (s : String) : List Nat :=
  base64DecodeChars s.data

/-- Bytes back to a string (faithful for ASCII contents). -/
def bytesToString (bs : List Nat) : String :=
  String.mk (bs.map Char.ofNat)

/-- The opening brace character. -/
def lbrace : Char := '\x7b'

/-- The closing brace character. -/
def rbrace : Char := '\x7d'

/-- The opening brace as a string. -/
def lbraceS : String := String.singleton lbrace

/-- The closing brace as a string. -/
def rbraceS : String := String.singleton rbrace

/-- Escaping of one character inside a JSON string literal, as `encoding/json`. -/
def jsonEscapeChar (c : Char) : List Char :=
  if c = '"' then ['\\', '"']
  else if c = '\\' then ['\\', '\\']
  else if c = '\n' then ['\\', 'n']
  else if c = '\r' then ['\\', 'r']
  else if c = '\t' then ['\\', 't']
  else [c]

/-- Escape a whole string for embedding in a JSON string literal. -/
def jsonEscape (s : String) : String :=
  String.mk (s.data.map jsonEscapeChar).flatten

/-- A JSON string literal. -/
def jsonQuote (s : String) : String :=
  "\"" ++ jsonEscape s ++ "\""

/-- Concatenation of a list of strings (as Go's sequential buffer writes). -/
def concatStrings : List String → String
  | [] => ""
  | s :: rest => s ++ concatStrings rest

/-- Whether the second list is a prefix of the first. -/
def hasPrefixChars : List Char → List Char → Bool
  | _, [] => true
  | [], _ :: _ => false
  | a :: as, b :: bs => a = b && hasPrefixChars as bs

/-- Whether the second list is a suffix of the first. -/
def charsHasSuffix (l suffix : List Char) : Bool :=
  hasPrefixChars l.reverse suffix.reverse

/-- Split a character list on `.` separators (models `strings.Split`-style
splitting as used for version strings). -/
def splitDotsAux : List Char → List Char → List String
  | [], acc => [String.mk acc.reverse]
  | c :: rest, acc =>
    if c = '.' then String.mk acc.reverse :: splitDotsAux rest []
    else splitDotsAux rest (c :: acc)

/-- Split a string on `.` separators. -/
def splitDots (s : String) : List String :=
  splitDotsAux s.data []

/-- Drop leading whitespace. -/
def dropLeadingSpaces : List Char → List Char
  | [] => []
  | c :: rest => if c.isWhitespace then dropLeadingSpaces rest else c :: rest

/-- Trim whitespace from both ends. -/
def charsTrim (l : List Char) : List Char :=
  ((dropLeadingSpaces ((dropLeadingSpaces l).reverse)).reverse)

/-- Bytewise (code-point) lexicographic string ordering, as Go's `<` on
strings: the empty list first, then by first differing character. -/
def charsLe : List Char → List Char → Bool
  | [], _ => true
  | _ :: _, [] => false
  | a :: as, b :: bs =>
    if a.toNat = b.toNat then charsLe as bs else decide (a.toNat < b.toNat)

/-- Lexicographic ordering on strings. -/
def strLe (a b : String) : Bool :=
  charsLe a.data b.data

/-! ### Semantic versions (models the `Masterminds/semver` collaborator,
restricted to the three-part numeric grammar used by the installer files) -/

/-- A parsed semantic version. -/
structure SemVer where
  major : Nat
  minor : Nat
  patch : Nat
deriving DecidableEq

/-- Numeric value of a digit string, `none` if empty or non-numeric. -/
def parseNatDigits (s : String) : Option Nat :=
  if s.isEmpty then none
  else if s.data.all Char.isDigit then
    some (s.data.foldl (fun acc c => acc * 10 + (c.toNat - 48)) 0)
  else none

/-- `semver.NewVersion`: an optional leading `v` followed by
`major.minor.patch`, all numeric. -/
def semverParse (s : String) : Option SemVer :=
  let body := if hasPrefixChars s.data (("v").data) then s.drop 1 else s
  match splitDots body with
  | [a, b, c] =>
    match parseNatDigits a, parseNatDigits b, parseNatDigits c with
    | some x, some y, some z => some ⟨x, y, z⟩
    | _, _, _ => none
  | _ => none

/-- `semver.Version.String`: canonical `major.minor.patch`, no leading `v`. -/
def SemVer.str (v : SemVer) : String :=
  toString v.major ++ "." ++ toString v.minor ++ "." ++ toString v.patch

/-- Semantic-version (non-lexicographic) ordering used by `semver.Collection`. -/
def semverLe (a b : SemVer) : Prop :=
  a.major < b.major ∨ (a.major = b.major ∧
    (a.minor < b.minor ∨ (a.minor = b.minor ∧ a.patch ≤ b.patch)))

instance : DecidableRel semverLe := fun a b => by
  unfold semverLe; infer_instance

instance : IsTotal SemVer semverLe where
  total a b := by unfold semverLe; omega

instance : IsTrans SemVer semverLe where
  trans a b c hab hbc := by
    unfold semverLe at *; omega

/-! ### Go error values -/

/-- Error values arising in the embedded functions. `noManifest`, `noKeyFile`
and `noInstallation` model the three distinguished sentinel errors; `wrap`
models `fmt.Errorf("msg: %w", e)`. -/
inductive GoErr where
  | noManifest
  | noKeyFile
  | noInstallation
  | notExist (path : String)
  | parseVersion (raw : String)
  | templateParse (msg : String)
  | issuerGen (msg : String)
  | str (msg : String)
  | wrap (msg : String) (e : GoErr)
deriving DecidableEq

/-! ### Version catalog -/

/-- `strings.TrimSuffix(name, ".yaml")`. -/
def trimYamlSuffix (s : String) : String :=
  if charsHasSuffix s.data ((".yaml").data) then s.dropRight 5 else s

/-- `Versions` (operator.go): list embedded installer names, strip the
`.yaml` extension, parse each as a semantic version (first failure aborts),
sort ascending semantically, and prefix each canonical string with `v`. -/
def Versions (files : List String) : Except GoErr (List String) := do
  let rawVersions := files.map trimYamlSuffix
  let parsedVersions ← rawVersions.mapM (fun rawVersion =>
    match semverParse rawVersion with
    | some v => Except.ok v
    | none => Except.error (GoErr.parseVersion rawVersion))
  let sorted := parsedVersions.insertionSort semverLe
  return sorted.map (fun v => "v" ++ v.str)

/-- Contents of a named embedded file or credential file. -/
def openFile (files : List (String × String)) (name : String) : Except GoErr String :=
  match files.lookup name with
  | some content => Except.ok content
  | none => Except.error (GoErr.notExist name)

/-- The last element of a list (`versions[len(versions)-1]` in Go; the
out-of-range panic on an empty list is modelled by the default). -/
def lastOr (l : List String) (d : String) : String :=
  match l with
  | [] => d
  | [a] => a
  | _ :: rest => lastOr rest d

/-- `latestManifest`: highest version from the catalog, then open its file.
The raw open error is returned unmapped. -/
def latestManifest (files : List (String × String)) : Except GoErr String := do
  let versions ← Versions (files.map Prod.fst)
  let latest := lastOr versions ("")
  openFile files (latest ++ ".yaml")

/-- `manifestVersion`: open the named version's file, mapping the
not-exist error to the `ErrNoManifest` sentinel. -/
def manifestVersion (files : List (String × String)) (version : String) :
    Except GoErr String :=
  match openFile files (version ++ ".yaml") with
  | Except.error (GoErr.notExist _) => Except.error GoErr.noManifest
  | Except.error e => Except.error e
  | Except.ok file => Except.ok file

/-! ### Docker config and image pull secret -/

/-- Modelled from the spec: the internal `docker` package's config-entry type
(src of `internal/docker` is not included); one registry-host entry with
discrete username/password/email fields plus the base64 `auth` blob. -/
structure ConfigEntry where
  username : String
  password : String
  email : String
  auth : String
deriving DecidableEq

/-- Modelled from the spec: the internal `docker` package's `ConfigJSON` type,
a Docker config JSON document keyed by registry hostname. -/
structure ConfigJSON where
  auths : List (String × ConfigEntry)
deriving DecidableEq

/-- `encoding/json` marshalling of a `ConfigEntry`, fields in struct order. -/
def jsonMarshalEntry (e : ConfigEntry) : String :=
  lbraceS ++ jsonQuote ("username") ++ ":" ++ jsonQuote e.username ++ "," ++
    jsonQuote ("password") ++ ":" ++ jsonQuote e.password ++ "," ++
    jsonQuote ("email") ++ ":" ++ jsonQuote e.email ++ "," ++
    jsonQuote ("auth") ++ ":" ++ jsonQuote e.auth ++ rbraceS

/-- `encoding/json` marshalling of a `ConfigJSON`. -/
def jsonMarshalConfig (c : ConfigJSON) : String :=
  lbraceS ++ jsonQuote ("auths") ++ ":" ++ lbraceS ++
    String.join ((c.auths.map
      (fun kv => jsonQuote kv.1 ++ ":" ++ jsonMarshalEntry kv.2)).intersperse (",")) ++
    rbraceS ++ rbraceS

/-- A Kubernetes `corev1.Secret` as built by this package: type meta, object
meta, secret type, and a data map whose values are raw bytes (here strings). -/
structure Secret where
  apiVersion : String
  kind : String
  name : String
  nameSpace : String
  type : String
  data : List (String × String)
deriving DecidableEq

/-- `ImagePullSecret` (operator.go): read the key file (missing path gives the
`ErrNoKeyFile` sentinel), build a Docker config for the fixed `eu.gcr.io` host
with the fixed `_json_key` username, the key contents as password, the fixed
email, and `auth = base64(username ++ ":" ++ contents)`; wrap the marshalled
config as a docker-config-json Secret with fixed name and namespace. -/
def ImagePullSecret (credFS : List (String × String)) (keyFileLocation : String) :
    Except GoErr Secret :=
  match credFS.lookup keyFileLocation with
  | none => Except.error GoErr.noKeyFile
  | some keyData =>
    let username := "_json_key"
    let email := "auth@jetstack.io"
    let auth := username ++ ":" ++ keyData
    let config : ConfigJSON :=
      { auths := [("eu.gcr.io",
          { username := username
            password := keyData
            email := email
            auth := base64Encode (strBytes auth) })] }
    Except.ok
      { apiVersion := "v1"
        kind := "Secret"
        name := "jse-gcr-creds"
        nameSpace := "jetstack-secure"
        type := "kubernetes.io/dockerconfigjson"
        data := [(".dockerconfigjson", jsonMarshalConfig config)] }

/-- `sigs.k8s.io/yaml` marshalling of a `Secret`: a block-style document whose
`data` values are base64-encoded, exactly as Go renders `map[string][]byte`. -/
def yamlMarshalSecret (s : Secret) : String :=
  "apiVersion: " ++ s.apiVersion ++ "\n" ++
  "data:\n" ++
  concatStrings (s.data.map
    (fun kv => "  " ++ kv.1 ++ ": " ++ base64Encode (strBytes kv.2) ++ "\n")) ++
  "kind: " ++ s.kind ++ "\n" ++
  "metadata:\n" ++
  "  name: " ++ s.name ++ "\n" ++
  "  namespace: " ++ s.nameSpace ++ "\n" ++
  "type: " ++ s.type ++ "\n"

/-! ### Go text/template (models the `text/template` collaborator for the one
substitution variable used by the installer files) -/

/-- Scanner mode of the template renderer: literal text, literal text having
just seen one `\x7b`, inside an action body, inside an action body having just
seen one `\x7d`. -/
inductive RMode where
  | lit
  | lit1
  | act (body : List Char)
  | act1 (body : List Char)

/-- One-pass parse-and-execute of a Go template whose only valid action is
`.ImageRegistry`: `\x7b\x7b` opens an action, `\x7d\x7d` closes it; an
unterminated action is a parse error, as is any action other than
`.ImageRegistry`. -/
def renderChars (reg : String) : RMode → List Char → Except GoErr (List Char)
  | RMode.lit, [] => Except.ok []
  | RMode.lit1, [] => Except.ok [lbrace]
  | RMode.act _, [] => Except.error (GoErr.templateParse ("unclosed action"))
  | RMode.act1 _, [] => Except.error (GoErr.templateParse ("unclosed action"))
  | RMode.lit, c :: rest =>
    if c = lbrace then renderChars reg RMode.lit1 rest
    else (renderChars reg RMode.lit rest).map (fun out => c :: out)
  | RMode.lit1, c :: rest =>
    if c = lbrace then renderChars reg (RMode.act []) rest
    else (renderChars reg RMode.lit rest).map (fun out => lbrace :: c :: out)
  | RMode.act body, c :: rest =>
    if c = rbrace then renderChars reg (RMode.act1 body) rest
    else renderChars reg (RMode.act (body ++ [c])) rest
  | RMode.act1 body, c :: rest =>
    if c = rbrace then
      if charsTrim body = ((".ImageRegistry").data) then
        (renderChars reg RMode.lit rest).map (fun out => reg.data ++ out)
      else Except.error (GoErr.templateParse ("bad action"))
    else renderChars reg (RMode.act (body ++ [rbrace, c])) rest

/-- `template.Parse` followed by `Execute` with `ImageRegistry ↦ reg`. -/
def templateRender (text reg : String) : Except GoErr String :=
  (renderChars reg RMode.lit text.data).map String.mk

/-! ### ApplyOperatorYAML -/

/-- `ApplyOperatorYAMLOptions` (operator.go). -/
structure ApplyOperatorYAMLOptions where
  Version : String
  ImageRegistry : String
  CredentialsLocation : String
deriving DecidableEq

/-- `ApplyOperatorYAML` (operator.go): choose the installer file (latest for
an empty version, exact lookup otherwise), build and marshal the image pull
secret, concatenate installer, document marker and secret, render the whole
stream as one template, and hand the result to the applier. The `.ok` payload
is the byte stream handed to `applier.Apply`; any `.error` is returned before
the applier is invoked. -/
def ApplyOperatorYAML (files credFS : List (String × String))
    (options : ApplyOperatorYAMLOptions) : Except GoErr String :=
  match (if options.Version = "" then latestManifest files
      else manifestVersion files options.Version) with
  | Except.error e => Except.error e
  | Except.ok file =>
    match ImagePullSecret credFS options.CredentialsLocation with
    | Except.error e => Except.error e
    | Except.ok secret =>
      templateRender (file ++ "---\n" ++ yamlMarshalSecret secret) options.ImageRegistry

/-! ### Installation custom resource (types mirror
`js-operator/pkg/apis/operator/v1alpha1`; pointer fields are `Option`) -/

/-- `CertManagerControllerConfig`: replica count pointer. -/
structure CertManagerControllerConfig where
  replicaCount : Option Int
deriving DecidableEq

/-- `CertManagerWebhookConfig`: replica count pointer. -/
structure CertManagerWebhookConfig where
  replicaCount : Option Int
deriving DecidableEq

/-- `CertManager` component configuration. -/
structure CertManager where
  controller : Option CertManagerControllerConfig
  webhook : Option CertManagerWebhookConfig
  version : String
deriving DecidableEq

/-- `CSIDriverCertManagerSpiffe`: replica count pointer. -/
structure CSIDriverCertManagerSpiffe where
  replicaCount : Option Int
deriving DecidableEq

/-- `CSIDrivers`: the two optional drivers; `CSIDriverCertManager` is an empty
struct, modelled as `Unit`. -/
structure CSIDrivers where
  certManager : Option Unit
  certManagerSpiffe : Option CSIDriverCertManagerSpiffe
deriving DecidableEq

/-- `cmmeta.ObjectReference`. -/
structure ObjectReference where
  name : String
  kind : String
  group : String
deriving DecidableEq

/-- `IstioCSR` component configuration. -/
structure IstioCSR where
  replicaCount : Option Int
  issuerRef : Option ObjectReference
deriving DecidableEq

/-- `VenafiOauthHelper` component configuration. -/
structure VenafiOauthHelper where
  imagePullSecrets : List String
deriving DecidableEq

/-- Modelled from the spec: an issuer manifest fragment produced by the
`internal/venafi` collaborator (src of `internal/venafi` is not included). -/
structure Issuer where
  name : String
deriving DecidableEq

/-- `InstallationSpec`: the fields of the custom resource touched by this
package. -/
structure InstallationSpec where
  registry : String
  certManager : Option CertManager
  approverPolicy : Option Unit
  csiDrivers : Option CSIDrivers
  istioCSR : Option IstioCSR
  venafiOauthHelper : Option VenafiOauthHelper
  issuers : List Issuer
deriving DecidableEq

/-- `Installation` custom resource document. -/
structure Installation where
  apiVersion : String
  kind : String
  name : String
  spec : InstallationSpec
deriving DecidableEq

/-- `manifests` (operator.go): the installation document plus the collected
secret documents. -/
structure Manifests where
  installation : Installation
  secrets : List Secret
deriving DecidableEq

/-- Modelled from the spec: a user-supplied Venafi issuer template, the input
of the issuer-expansion collaborator (src of `internal/venafi` is not
included). `valid` abstracts whether expansion of this template succeeds. -/
structure VenafiIssuer where
  name : String
  valid : Bool
deriving DecidableEq

/-- Modelled from the spec: `venafi.GenerateOperatorManifestsForIssuer`, the
issuer-expansion collaborator — given an issuer template it returns an issuer
manifest fragment and an associated secret, or an error. -/
def GenerateOperatorManifestsForIssuer (t : VenafiIssuer) :
    Except String (Issuer × Secret) :=
  if t.valid then
    Except.ok
      ({ name := t.name },
       { apiVersion := "v1"
         kind := "Secret"
         name := t.name ++ "-credentials"
         nameSpace := "jetstack-secure"
         type := "Opaque"
         data := [] })
  else Except.error ("invalid issuer template " ++ t.name)

/-- `ApplyInstallationYAMLOptions` (operator.go). -/
structure ApplyInstallationYAMLOptions where
  InstallCSIDriver : Bool
  InstallSpiffeCSIDriver : Bool
  InstallIstioCSR : Bool
  InstallVenafiOauthHelper : Bool
  VenafiIssuers : List VenafiIssuer
  IstioCSRIssuer : String
  ImageRegistry : String
  Credentials : String
  CertManagerReplicas : Int
  CertManagerVersion : String
  IstioCSRReplicas : Int
  SpiffeCSIDriverReplicas : Int
deriving DecidableEq

/-! ### Installation builder steps -/

/-- `applyCertManagerVersion` (operator.go): set the cert-manager version on
the (always-present) `certManager` field when an override is given. -/
def applyCertManagerVersion (mf : Manifests)
    (options : ApplyInstallationYAMLOptions) : Manifests :=
  if options.CertManagerVersion = "" then mf
  else
    { mf with installation := { mf.installation with spec :=
        { mf.installation.spec with certManager := (mf.installation.spec.certManager.map
            (fun cm => { cm with version := options.CertManagerVersion })) } } }

/-- `applyCSIDriversToInstallation` (operator.go): build the drivers struct
from the two flags, each sub-field independently, and assign it only when at
least one flag is set (the validating webhook rejects a present-but-empty
`csiDrivers` field). -/
def applyCSIDriversToInstallation (mf : Manifests)
    (options : ApplyInstallationYAMLOptions) : Manifests :=
  let assign := options.InstallCSIDriver || options.InstallSpiffeCSIDriver
  let drivers : CSIDrivers :=
    { certManager := if options.InstallCSIDriver then some () else none
      certManagerSpiffe :=
        if options.InstallSpiffeCSIDriver then
          some { replicaCount := some options.SpiffeCSIDriverReplicas }
        else none }
  if assign then
    { mf with installation := { mf.installation with spec :=
        { mf.installation.spec with csiDrivers := some drivers } } }
  else mf

/-- `applyIstioCSRToInstallation` (operator.go): when the istio-csr flag is
set, attach the component with its replica count, and additionally an issuer
reference with the fixed cert-manager kind and group when an issuer name was
given. The Go function returns an error but never a non-nil one. -/
def applyIstioCSRToInstallation (mf : Manifests)
    (options : ApplyInstallationYAMLOptions) : Except GoErr Manifests :=
  if !options.InstallIstioCSR then Except.ok mf
  else
    let istio : IstioCSR :=
      { replicaCount := some options.IstioCSRReplicas, issuerRef := none }
    let istio :=
      if options.IstioCSRIssuer = "" then istio
      else
        { istio with issuerRef := some { name := options.IstioCSRIssuer, kind := "Issuer", group := "cert-manager.io" } }
    Except.ok
      { mf with installation := { mf.installation with spec :=
          { mf.installation.spec with istioCSR := some istio } } }

/-- `applyVenafiOauthHelperToInstallation` (operator.go): when the oauth
helper flag is set, attach it, with the fixed pull-secret reference name when
a credential path is supplied. The Go function returns an error but never a
non-nil one, and the caller discards it. -/
def applyVenafiOauthHelperToInstallation (mf : Manifests)
    (options : ApplyInstallationYAMLOptions) : Manifests :=
  if !options.InstallVenafiOauthHelper then mf
  else
    let imagePullSecrets :=
      if options.Credentials = "" then [] else ["jse-gcr-creds"]
    { mf with installation := { mf.installation with spec :=
        { mf.installation.spec with venafiOauthHelper := some { imagePullSecrets := imagePullSecrets } } } }

/-- The inline pull-secret collection step of `ApplyInstallationYAML`
(operator.go lines 311-317): when a credential path is supplied, build the
image pull secret and append it to the collected secrets. -/
def collectImagePullSecret (credFS : List (String × String)) (mf : Manifests)
    (options : ApplyInstallationYAMLOptions) : Except GoErr Manifests :=
  if options.Credentials = "" then Except.ok mf
  else
    match ImagePullSecret credFS options.Credentials with
    | Except.error e =>
        Except.error (GoErr.wrap ("failed to parse image pull secret") e)
    | Except.ok secret => Except.ok { mf with secrets := mf.secrets ++ [secret] }

/-- One iteration's effect in `generateVenafiIssuerManifests` (operator.go):
append the secret to the collected secrets and the issuer fragment to the
manifest's issuer list. -/
def appendIssuerSecret (mf : Manifests) (issuer : Issuer) (secret : Secret) :
    Manifests :=
  { mf with
    secrets := mf.secrets ++ [secret]
    installation := { mf.installation with spec :=
      { mf.installation.spec with issuers :=
          mf.installation.spec.issuers ++ [issuer] } } }

/-- Loop body of `generateVenafiIssuerManifests` (operator.go): expand each
template in input order, appending the secret and the issuer fragment;
the first failing expansion aborts. -/
def genIssuersFrom (templates : List VenafiIssuer) (mf : Manifests) :
    Except GoErr Manifests :=
  match templates with
  | [] => Except.ok mf
  | t :: rest =>
    match GenerateOperatorManifestsForIssuer t with
    | Except.error e =>
        Except.error
          (GoErr.issuerGen ("error generating manifests for Venafi issuer: " ++ e))
    | Except.ok (issuer, secret) =>
        genIssuersFrom rest (appendIssuerSecret mf issuer secret)

/-- `generateVenafiIssuerManifests` (operator.go). -/
def generateVenafiIssuerManifests (mf : Manifests)
    (options : ApplyInstallationYAMLOptions) : Except GoErr Manifests :=
  genIssuersFrom options.VenafiIssuers mf

/-- Rendering of an optional replica count. -/
def yamlOptInt : Option Int → String
  | none => "null"
  | some n => toString n

/-- `sigs.k8s.io/yaml` marshalling of the `Installation` document (fields with
`omitempty` semantics omitted when absent). -/
def yamlMarshalInstallation (i : Installation) : String :=
  "apiVersion: " ++ i.apiVersion ++ "\n" ++
  "kind: " ++ i.kind ++ "\n" ++
  "metadata:\n  name: " ++ i.name ++ "\n" ++
  "spec:\n" ++
  "  registry: " ++ i.spec.registry ++ "\n" ++
  (match i.spec.certManager with
   | none => ""
   | some cm =>
     "  certManager:\n" ++
     (match cm.controller with
      | none => ""
      | some c => "    controller:\n      replicas: " ++ yamlOptInt c.replicaCount ++ "\n") ++
     (match cm.webhook with
      | none => ""
      | some w => "    webhook:\n      replicas: " ++ yamlOptInt w.replicaCount ++ "\n") ++
     (if cm.version = "" then "" else "    version: " ++ cm.version ++ "\n")) ++
  (match i.spec.approverPolicy with
   | none => ""
   | some _ => "  approverPolicy: \x7b\x7d\n") ++
  (match i.spec.csiDrivers with
   | none => ""
   | some d =>
     "  csiDrivers:\n" ++
     (match d.certManager with
      | none => ""
      | some _ => "    certManager: \x7b\x7d\n") ++
     (match d.certManagerSpiffe with
      | none => ""
      | some sp => "    certManagerSpiffe:\n      replicas: " ++ yamlOptInt sp.replicaCount ++ "\n")) ++
  (match i.spec.istioCSR with
   | none => ""
   | some ic =>
     "  istioCSR:\n    replicas: " ++ yamlOptInt ic.replicaCount ++ "\n" ++
     (match ic.issuerRef with
      | none => ""
      | some r =>
        "    issuerRef:\n      name: " ++ r.name ++ "\n      kind: " ++ r.kind ++
          "\n      group: " ++ r.group ++ "\n")) ++
  (match i.spec.venafiOauthHelper with
   | none => ""
   | some v =>
     "  venafiOauthHelper:\n" ++
     concatStrings (v.imagePullSecrets.map (fun s => "    - " ++ s ++ "\n"))) ++
  (if i.spec.issuers.isEmpty then ""
   else "  issuers:\n" ++
     concatStrings (i.spec.issuers.map (fun iss => "    - name: " ++ iss.name ++ "\n")))

/-- `marshalManifests` (operator.go): the installation document followed by
each collected secret, separated by document markers, in collection order. -/
def marshalManifests (mf : Manifests) : String :=
  yamlMarshalInstallation mf.installation ++
  concatStrings (mf.secrets.map (fun secret => "---\n" ++ yamlMarshalSecret secret))

/-- The manifest skeleton built at the top of `ApplyInstallationYAML`
(operator.go lines 273-295). -/
def initialInstallation (options : ApplyInstallationYAMLOptions) : Installation :=
  { apiVersion := "operator.jetstack.io/v1alpha1"
    kind := "Installation"
    name := "installation"
    spec :=
      { registry := options.ImageRegistry
        certManager :=
          some { controller := some { replicaCount := some options.CertManagerReplicas }
                 webhook := some { replicaCount := some options.CertManagerReplicas }
                 version := "" }
        approverPolicy := some ()
        csiDrivers := none
        istioCSR := none
        venafiOauthHelper := none
        issuers := [] } }

/-- The manifest-construction part of `ApplyInstallationYAML` (operator.go
lines 273-321): skeleton, then the mutation steps in the implemented order,
with the source's error wrapping. -/
def buildInstallationManifests (credFS : List (String × String))
    (options : ApplyInstallationYAMLOptions) : Except GoErr Manifests :=
  match applyIstioCSRToInstallation
      { installation := initialInstallation options, secrets := [] } options with
  | Except.error e => Except.error (GoErr.wrap ("failed to configure istio csr") e)
  | Except.ok mf1 =>
    match collectImagePullSecret credFS
        (applyVenafiOauthHelperToInstallation
          (applyCSIDriversToInstallation (applyCertManagerVersion mf1 options) options)
          options)
        options with
    | Except.error e => Except.error e
    | Except.ok mf5 =>
      match generateVenafiIssuerManifests mf5 options with
      | Except.error e =>
          Except.error (GoErr.wrap ("error building manifests for Venafi issuers") e)
      | Except.ok mf6 => Except.ok mf6

/-- `ApplyInstallationYAML` (operator.go): construct the manifests, marshal
them, and hand the stream to the applier. The second component is the list of
streams passed to `applier.Apply` (the invocation trace); `applierRes` gives
the applier's own result for a stream. -/
def ApplyInstallationYAML (credFS : List (String × String))
    (applierRes : String → Except GoErr Unit)
    (options : ApplyInstallationYAMLOptions) : Except GoErr Unit × List String :=
  match buildInstallationManifests credFS options with
  | Except.error e => (Except.error e, [])
  | Except.ok mf =>
    let buf := marshalManifests mf
    (applierRes buf, [buf])

/-! ### Status reader -/

/-- A status condition on the Installation resource. -/
structure InstallationCondition where
  type : String
  status : String
  message : String
deriving DecidableEq

/-- `ComponentStatus` (operator.go). -/
structure ComponentStatus where
  name : String
  ready : Bool
  message : String
deriving DecidableEq

/-- `operatorv1alpha1.ConditionTrue` sentinel. -/
def ConditionTrue : String := "True"

/-- `componentNames` (operator.go): the fixed friendly-name table, keyed by
the condition-type constants of the operator API. -/
def componentNames : List (String × String) :=
  [("CertManagerReady", "cert-manager"),
   ("CertManagerIssuersReady", "issuers"),
   ("CSIDriversReady", "csi-driver"),
   ("IstioCSRReady", "istio-csr"),
   ("ApproverPolicyReady", "approver-policy"),
   ("VenafiOauthHelperReady", "venafi-oauth-helper"),
   ("ManifestsReady", "manifests")]

/-- The condition-mapping loop and final sort of `Status` (operator.go lines
541-567): readiness from the `True` sentinel, message only when not ready,
unrecognized condition types dropped, result sorted by friendly name. -/
def statusFromConditions (conditions : List InstallationCondition) :
    List ComponentStatus :=
  let statuses := conditions.foldl
    (fun acc condition =>
      match componentNames.lookup condition.type with
      | none => acc
      | some componentName =>
          acc ++ [{ name := componentName
                    ready := condition.status == ConditionTrue
                    message := if condition.status == ConditionTrue then ""
                               else condition.message }])
    []
  statuses.insertionSort (fun a b => strLe a.name b.name = true)

/-- Status of the installation resource as fetched from the cluster. -/
structure InstallationStatus where
  conditions : List InstallationCondition
deriving DecidableEq

/-- Outcome of the cluster fetch in `Status` (operator.go line 533), as
classified by `kerrors.IsNotFound`. -/
inductive FetchResult where
  | notFound
  | otherError (msg : String)
  | ok (status : InstallationStatus)
deriving DecidableEq

/-- `Status` (operator.go): the not-found fetch outcome becomes the
`ErrNoInstallation` sentinel, any other fetch failure is propagated, and a
successful fetch is mapped through the condition loop. -/
def Status (fetch : FetchResult) : Except GoErr (List ComponentStatus) :=
  match fetch with
  | FetchResult.notFound => Except.error GoErr.noInstallation
  | FetchResult.otherError msg => Except.error (GoErr.str msg)
  | FetchResult.ok s => Except.ok (statusFromConditions s.conditions)

/-! ### Derived forms and concrete fixtures used by the verification -/

/-- The Docker config built by `ImagePullSecret` for given key contents. -/
def pullSecretConfig (contents : String) : ConfigJSON :=
  { auths := [("eu.gcr.io",
      { username := "_json_key"
        password := contents
        email := "auth@jetstack.io"
        auth := base64Encode (strBytes ("_json_key:" ++ contents)) })] }

/-- The Secret built by `ImagePullSecret` for given key contents. -/
def pullSecretFor (contents : String) : Secret :=
  { apiVersion := "v1"
    kind := "Secret"
    name := "jse-gcr-creds"
    nameSpace := "jetstack-secure"
    type := "kubernetes.io/dockerconfigjson"
    data := [(".dockerconfigjson", jsonMarshalConfig (pullSecretConfig contents))] }

/-- The per-condition mapping of the status loop, written as the spec states
it: drop unrecognized condition types, readiness from the `True` sentinel,
message only when not ready. -/
def specStatusEntry (c : InstallationCondition) : Option ComponentStatus :=
  match componentNames.lookup c.type with
  | none => none
  | some n =>
      some { name := n
             ready := c.status == ConditionTrue
             message := if c.status == ConditionTrue then "" else c.message }

/-- The installation builder with the last two steps swapped: issuer-template
expansion before pull-secret collection. Used to test the ordering claim. -/
def buildPermutedManifests (credFS : List (String × String))
    (options : ApplyInstallationYAMLOptions) : Except GoErr Manifests :=
  match applyIstioCSRToInstallation
      { installation := initialInstallation options, secrets := [] } options with
  | Except.error e => Except.error (GoErr.wrap ("failed to configure istio csr") e)
  | Except.ok mf1 =>
    match generateVenafiIssuerManifests
        (applyVenafiOauthHelperToInstallation
          (applyCSIDriversToInstallation (applyCertManagerVersion mf1 options) options)
          options)
        options with
    | Except.error e =>
        Except.error (GoErr.wrap ("error building manifests for Venafi issuers") e)
    | Except.ok mf5 =>
      match collectImagePullSecret credFS mf5 options with
      | Except.error e => Except.error e
      | Except.ok mf6 => Except.ok mf6

/-- Update only the registry field of the built manifests. -/
def setRegistry (r : String) (mf : Manifests) : Manifests :=
  { mf with installation := { mf.installation with spec :=
      { mf.installation.spec with registry := r } } }

/-- Options with every optional component off, used as a base for fixtures. -/
def baseOptions : ApplyInstallationYAMLOptions :=
  { InstallCSIDriver := false
    InstallSpiffeCSIDriver := false
    InstallIstioCSR := false
    InstallVenafiOauthHelper := false
    VenafiIssuers := []
    IstioCSRIssuer := ""
    ImageRegistry := ""
    Credentials := ""
    CertManagerReplicas := 2
    CertManagerVersion := ""
    IstioCSRReplicas := 1
    SpiffeCSIDriverReplicas := 1 }

/-- Fixture: options with both a credential path and one issuer template, so
that both secret-collecting steps are active. -/
def orderingOptions : ApplyInstallationYAMLOptions :=
  { baseOptions with Credentials := "cred", VenafiIssuers := [{ name := "a", valid := true }] }

/-- Fixture: a credential filesystem holding one readable key file. -/
def credFixture : List (String × String) := [("cred", "KEY")]

/-- Fixture: options whose single issuer template fails to expand. -/
def failingIssuerOptions : ApplyInstallationYAMLOptions :=
  { baseOptions with VenafiIssuers := [{ name := "x", valid := false }] }

/-- Fixture installer template: one registry substitution point, as every
embedded installer file carries. -/
def installerYAML : String :=
  "image: \x7b\x7b .ImageRegistry \x7d\x7d/operator\n"

/-- Fixture embedded catalog holding one installer version. -/
def installerFiles : List (String × String) := [("v1.0.0.yaml", installerYAML)]

/-- Credential contents consisting of a template action opener. -/
def braceContent : String := "\x7b\x7b"

/-- Fixture operator options: the existing version, a registry, and the
fixture credential path. -/
def braceOptions (reg : String) : ApplyOperatorYAMLOptions :=
  { Version := "v1.0.0", ImageRegistry := reg, CredentialsLocation := "cred" }

/-- The istio-csr component value attached by the istio-csr step. -/
def istioValue (options : ApplyInstallationYAMLOptions) : IstioCSR :=
  if options.IstioCSRIssuer = "" then
    { replicaCount := some options.IstioCSRReplicas, issuerRef := none }
  else
    { replicaCount := some options.IstioCSRReplicas
      issuerRef := some { name := options.IstioCSRIssuer
                          kind := "Issuer"
                          group := "cert-manager.io" } }

/-- The pure manifest update performed by `applyIstioCSRToInstallation`
(which always returns a nil error). -/
def istioUpdate (options : ApplyInstallationYAMLOptions) (mf : Manifests) : Manifests :=
  if !options.InstallIstioCSR then mf
  else
    { mf with installation := { mf.installation with spec :=
        { mf.installation.spec with istioCSR := some (istioValue options) } } }

deriving instance DecidableEq for Except

instance : IsTotal ComponentStatus (fun a b => strLe a.name b.name = true) := by
  have htot : ∀ xs ys : List Char, charsLe xs ys = true ∨ charsLe ys xs = true := by
    intro xs
    induction xs with
    | nil => intro ys; left; rfl
    | cons a as ih =>
        intro ys
        cases ys with
        | nil => right; rfl
        | cons b bs =>
            simp only [charsLe]
            by_cases hab : a.toNat = b.toNat
            · rcases ih bs with h | h
              · left; simp [hab, h]
              · right; simp [hab.symm, h]
            · by_cases hlt : a.toNat < b.toNat
              · left; simp [hab, hlt]
              · right
                have h1 : b.toNat ≠ a.toNat := fun hh => hab hh.symm
                have h2 : b.toNat < a.toNat := by omega
                simp [h1, h2]
  exact ⟨fun x y => htot x.name.data y.name.data⟩

instance : IsTrans ComponentStatus (fun a b => strLe a.name b.name = true) := by
  have htrans : ∀ xs ys zs : List Char,
      charsLe xs ys = true → charsLe ys zs = true → charsLe xs zs = true := by
    intro xs
    induction xs with
    | nil => intro ys zs h1 h2; rfl
    | cons a as ih =>
        intro ys zs h1 h2
        cases ys with
        | nil => simp [charsLe] at h1
        | cons b bs =>
            cases zs with
            | nil => simp [charsLe] at h2
            | cons c cs =>
                simp only [charsLe] at h1 h2 ⊢
                by_cases hab : a.toNat = b.toNat <;> by_cases hbc : b.toNat = c.toNat
                · rw [if_pos hab] at h1
                  rw [if_pos hbc] at h2
                  rw [if_pos (hab.trans hbc)]
                  exact ih bs cs h1 h2
                · rw [if_pos hab] at h1
                  rw [if_neg hbc] at h2
                  have h2' : b.toNat < c.toNat := by simpa using h2
                  have hac : a.toNat ≠ c.toNat := by omega
                  rw [if_neg hac]
                  simp; omega
                · rw [if_neg hab] at h1
                  rw [if_pos hbc] at h2
                  have h1' : a.toNat < b.toNat := by simpa using h1
                  have hac : a.toNat ≠ c.toNat := by omega
                  rw [if_neg hac]
                  simp; omega
                · rw [if_neg hab] at h1
                  rw [if_neg hbc] at h2
                  have h1' : a.toNat < b.toNat := by simpa using h1
                  have h2' : b.toNat < c.toNat := by simpa using h2
                  have hac : a.toNat ≠ c.toNat := by omega
                  rw [if_neg hac]
                  simp; omega
  exact ⟨fun x y z h1 h2 => htrans x.name.data y.name.data z.name.data h1 h2⟩

/-! ## Theorems -/

/-- Reassociation of the fixed username prefix in the auth string. -/
theorem jsonKeyPrefix (c : String) : "_json_key" ++ (":" ++ c) = "_json_key:" ++ c := by
  rw [← String.append_assoc]; rfl

/-- `ImagePullSecret` on a readable key file returns exactly the fixed-shape
pull secret for the file's contents. -/
theorem ImagePullSecret_eq (credFS : List (String × String)) (loc contents : String)
    (h : credFS.lookup loc = some contents) :
    ImagePullSecret credFS loc = Except.ok (pullSecretFor contents) := by
  unfold ImagePullSecret
  rw [h]
  simp [pullSecretFor, pullSecretConfig, jsonKeyPrefix]

/-- C6: for every readable key file, ImagePullSecret returns a Secret with
fixed name "jse-gcr-creds", namespace "jetstack-secure", type
docker-config-json, whose single registry-host entry has username "_json_key",
password equal to the key-file contents, and auth equal to
base64("_json_key:" ++ contents); in particular for contents "ABC123" the auth
field decodes to exactly "_json_key:ABC123". -/
theorem C6_image_pull_secret_fields (credFS : List (String × String))
    (loc contents : String) (h : credFS.lookup loc = some contents) :
    ImagePullSecret credFS loc = Except.ok (pullSecretFor contents) ∧
    (pullSecretFor contents).name = "jse-gcr-creds" ∧
    (pullSecretFor contents).nameSpace = "jetstack-secure" ∧
    (pullSecretFor contents).type = "kubernetes.io/dockerconfigjson" ∧
    (pullSecretConfig contents).auths =
      [("eu.gcr.io",
        { username := "_json_key"
          password := contents
          email := "auth@jetstack.io"
          auth := base64Encode (strBytes ("_json_key:" ++ contents)) })] ∧
    bytesToString (base64Decode (base64Encode (strBytes ("_json_key:" ++ "ABC123")))) =
      "_json_key:ABC123" := by
  exact ⟨ImagePullSecret_eq credFS loc contents h, rfl, rfl, rfl, rfl, by decide⟩

/-- Witness for C6 at a concrete one-file credential filesystem. -/
theorem C6_witness :
    ImagePullSecret [("k", "ABC123")] ("k") = Except.ok (pullSecretFor ("ABC123")) :=
  (C6_image_pull_secret_fields [("k", "ABC123")] ("k") ("ABC123") (by decide)).1

/-- C8: Status fails with the "no installation" error exactly when the fetch
reports not-found; any other fetch failure propagates as a generic error, and
on any failure no component statuses are returned. -/
theorem C8_status_error_mapping (fetch : FetchResult) :
    (Status fetch = Except.error GoErr.noInstallation ↔ fetch = FetchResult.notFound) ∧
    (∀ msg, fetch = FetchResult.otherError msg →
      Status fetch = Except.error (GoErr.str msg)) ∧
    (∀ e statuses, Status fetch = Except.error e → Status fetch ≠ Except.ok statuses) := by
  refine ⟨?_, ?_, ?_⟩
  · cases fetch <;> simp [Status]
  · intro msg h; subst h; rfl
  · intro e statuses he h; rw [he] at h; exact Except.noConfusion h

/-- Witness for C8 at the not-found fetch outcome. -/
theorem C8_witness : Status FetchResult.notFound = Except.error GoErr.noInstallation :=
  (C8_status_error_mapping FetchResult.notFound).1.mpr rfl

/-- The condition loop of `Status` is the spec's per-condition filter-map. -/
theorem statusLoop_eq (conds : List InstallationCondition) (acc : List ComponentStatus) :
    conds.foldl
      (fun acc condition =>
        match componentNames.lookup condition.type with
        | none => acc
        | some componentName =>
            acc ++ [{ name := componentName
                      ready := condition.status == ConditionTrue
                      message := if condition.status == ConditionTrue then ""
                                 else condition.message }])
      acc = acc ++ conds.filterMap specStatusEntry := by
  induction conds generalizing acc with
  | nil => simp
  | cons c rest ih =>
      rw [List.foldl_cons, ih]
      cases h : componentNames.lookup c.type with
      | none => simp [specStatusEntry, h]
      | some n => simp [specStatusEntry, h]

/-- `statusFromConditions` is the sorted filter-map. -/
theorem statusFromConditions_eq (conds : List InstallationCondition) :
    statusFromConditions conds =
      (conds.filterMap specStatusEntry).insertionSort
        (fun a b => strLe a.name b.name = true) := by
  show (conds.foldl _ []).insertionSort _ = _
  rw [statusLoop_eq]
  rfl

/-- C7: Status returns one entry per condition whose type is in the fixed
friendly-name table (unrecognized types silently dropped), an entry is ready
iff the condition status equals the "true" sentinel, the message is populated
only when not ready, and the result is sorted ascending by friendly name;
the spec's three-condition example maps to exactly the claimed two entries. -/
theorem C7_status_mapping (conditions : List InstallationCondition) :
    (statusFromConditions conditions).Perm (conditions.filterMap specStatusEntry) ∧
    List.Sorted (fun a b => strLe a.name b.name = true) (statusFromConditions conditions) ∧
    (∀ entry ∈ statusFromConditions conditions, entry.ready = true → entry.message = "") ∧
    statusFromConditions
      [{ type := "CertManagerReady", status := "True", message := "" },
       { type := "IstioCSRReady", status := "False", message := "pending" },
       { type := "UnknownType", status := "True", message := "" }] =
      [{ name := "cert-manager", ready := true, message := "" },
       { name := "istio-csr", ready := false, message := "pending" }] := by
  refine ⟨?_, ?_, ?_, by decide⟩
  · rw [statusFromConditions_eq]
    exact List.perm_insertionSort _ _
  · rw [statusFromConditions_eq]
    exact List.sorted_insertionSort _ _
  · intro entry hm hr
    rw [statusFromConditions_eq] at hm
    have hm' : entry ∈ conditions.filterMap specStatusEntry :=
      (List.perm_insertionSort _ _).subset hm
    obtain ⟨c, _, he⟩ := List.mem_filterMap.mp hm'
    unfold specStatusEntry at he
    cases hl : componentNames.lookup c.type with
    | none => rw [hl] at he; exact Option.noConfusion he
    | some n =>
        rw [hl] at he
        cases he' : c.status == ConditionTrue with
        | true =>
            simp only [he', Option.some.injEq] at he
            rw [← he]
            simp
        | false =>
            simp only [he', Bool.false_eq_true, if_neg, Option.some.injEq] at he
            rw [← he] at hr
            exact absurd hr (by simp [he'])

/-- Witness for C7 at a single ready condition. -/
theorem C7_witness :
    ({ name := "cert-manager", ready := true, message := "" } : ComponentStatus).message = "" :=
  (C7_status_mapping [{ type := "CertManagerReady", status := "True", message := "" }]).2.2.1
    _ (by decide) rfl

/-- When every raw version parses, the parsing loop of `Versions` succeeds
with exactly the parsed versions in input order. -/
theorem mapM_semver_ok (l : List String) (h : ∀ r ∈ l, (semverParse r).isSome) :
    (l.mapM (fun rawVersion =>
      match semverParse rawVersion with
      | some v => Except.ok v
      | none => Except.error (GoErr.parseVersion rawVersion)) :
        Except GoErr (List SemVer)) =
    Except.ok (l.filterMap semverParse) := by
  induction l with
  | nil => rfl
  | cons r rest ih =>
      obtain ⟨v, hv⟩ := Option.isSome_iff_exists.mp (h r (List.mem_cons_self r rest))
      have ih' := ih (fun x hx => h x (List.mem_cons_of_mem _ hx))
      simp only [List.mapM_cons, List.filterMap_cons, hv, ih']
      rfl

/-- When some raw version fails to parse, the parsing loop of `Versions`
fails with a parse error naming an unparsable raw version. -/
theorem mapM_semver_err (l : List String) (h : ∃ r ∈ l, semverParse r = none) :
    ∃ raw, semverParse raw = none ∧
      (l.mapM (fun rawVersion =>
        match semverParse rawVersion with
        | some v => Except.ok v
        | none => Except.error (GoErr.parseVersion rawVersion)) :
          Except GoErr (List SemVer)) =
      Except.error (GoErr.parseVersion raw) := by
  induction l with
  | nil => obtain ⟨r, hr, _⟩ := h; exact absurd hr (List.not_mem_nil r)
  | cons r rest ih =>
      cases hr : semverParse r with
      | none =>
          refine ⟨r, hr, ?_⟩
          simp only [List.mapM_cons, hr]
          rfl
      | some v =>
          obtain ⟨w, hw, hwp⟩ := h
          rcases List.mem_cons.mp hw with rfl | hw'
          · rw [hr] at hwp; exact Option.noConfusion hwp
          · obtain ⟨raw, h1, h2⟩ := ih ⟨w, hw', hwp⟩
            refine ⟨raw, h1, ?_⟩
            simp only [List.mapM_cons, hr, h2]
            rfl

/-- C5: for every embedded file set whose filenames (extension stripped) all
parse as semantic versions, Versions returns exactly those versions sorted
ascending by semantic-version ordering (not lexicographic), each prefixed
with "v"; if any filename does not parse, Versions fails with a parse error.
The spec's example set `1.2.0.yaml`, `1.10.0.yaml` yields
`["v1.2.0", "v1.10.0"]`. -/
theorem C5_versions_sorted (files : List String) :
    ((∀ n ∈ files, (semverParse (trimYamlSuffix n)).isSome) →
      ∃ sorted, Versions files = Except.ok (sorted.map (fun v => "v" ++ v.str)) ∧
        sorted.Perm (files.filterMap (fun n => semverParse (trimYamlSuffix n))) ∧
        List.Sorted semverLe sorted) ∧
    ((∃ n ∈ files, semverParse (trimYamlSuffix n) = none) →
      ∃ raw, semverParse raw = none ∧
        Versions files = Except.error (GoErr.parseVersion raw)) ∧
    Versions ["1.2.0.yaml", "1.10.0.yaml"] = Except.ok ["v1.2.0", "v1.10.0"] := by
  refine ⟨?_, ?_, by decide⟩
  · intro h
    refine ⟨(files.filterMap (fun n => semverParse (trimYamlSuffix n))).insertionSort semverLe,
      ?_, List.perm_insertionSort _ _, List.sorted_insertionSort _ _⟩
    have hparse : ∀ r ∈ files.map trimYamlSuffix, (semverParse r).isSome := by
      intro r hr
      obtain ⟨n, hn, rfl⟩ := List.mem_map.mp hr
      exact h n hn
    unfold Versions
    have hfm : (files.map trimYamlSuffix).filterMap semverParse =
        files.filterMap (fun n => semverParse (trimYamlSuffix n)) := by
      simp [List.filterMap_map, Function.comp_def]
    simp only [mapM_semver_ok (files.map trimYamlSuffix) hparse, hfm]
    rfl
  · intro h
    have h' : ∃ r ∈ files.map trimYamlSuffix, semverParse r = none := by
      obtain ⟨n, hn, hp⟩ := h
      exact ⟨trimYamlSuffix n, List.mem_map_of_mem _ hn, hp⟩
    obtain ⟨raw, h1, h2⟩ := mapM_semver_err (files.map trimYamlSuffix) h'
    refine ⟨raw, h1, ?_⟩
    unfold Versions
    simp only [h2]
    rfl

/-- Witness for C5 at the spec's example file set. -/
theorem C5_witness :
    ∃ sorted, Versions ["1.2.0.yaml", "1.10.0.yaml"] =
        Except.ok (sorted.map (fun v => "v" ++ v.str)) ∧
      sorted.Perm (["1.2.0.yaml", "1.10.0.yaml"].filterMap
        (fun n => semverParse (trimYamlSuffix n))) ∧
      List.Sorted semverLe sorted :=
  (C5_versions_sorted ["1.2.0.yaml", "1.10.0.yaml"]).1 (by decide)

/-- Issuer expansion never touches the CSI-driver field. -/
theorem genIssuersFrom_preserves_csi (ts : List VenafiIssuer) (mf mf' : Manifests)
    (h : genIssuersFrom ts mf = Except.ok mf') :
    mf'.installation.spec.csiDrivers = mf.installation.spec.csiDrivers := by
  induction ts generalizing mf with
  | nil =>
      simp only [genIssuersFrom, Except.ok.injEq] at h
      rw [← h]
  | cons t rest ih =>
      simp only [genIssuersFrom] at h
      cases hg : GenerateOperatorManifestsForIssuer t with
      | error e => rw [hg] at h; exact absurd h (by simp)
      | ok p =>
          obtain ⟨i, s⟩ := p
          rw [hg] at h
          rw [ih _ h]
          rfl

/-- Pull-secret collection never touches the installation document. -/
theorem collect_preserves_installation (credFS : List (String × String))
    (mf : Manifests) (options : ApplyInstallationYAMLOptions) (mf' : Manifests)
    (h : collectImagePullSecret credFS mf options = Except.ok mf') :
    mf'.installation = mf.installation := by
  unfold collectImagePullSecret at h
  split at h
  · simp only [Except.ok.injEq] at h; rw [← h]
  · split at h
    · exact absurd h (by simp)
    · simp only [Except.ok.injEq] at h; rw [← h]

/-- The oauth-helper step never touches the CSI-driver field. -/
theorem oauth_preserves_csi (mf : Manifests) (options : ApplyInstallationYAMLOptions) :
    (applyVenafiOauthHelperToInstallation mf options).installation.spec.csiDrivers =
      mf.installation.spec.csiDrivers := by
  unfold applyVenafiOauthHelperToInstallation
  split <;> rfl

/-- The cert-manager-version step never touches the CSI-driver field. -/
theorem certVer_preserves_csi (mf : Manifests) (options : ApplyInstallationYAMLOptions) :
    (applyCertManagerVersion mf options).installation.spec.csiDrivers =
      mf.installation.spec.csiDrivers := by
  unfold applyCertManagerVersion
  split <;> rfl

/-- The istio-csr step never touches the CSI-driver field. -/
theorem istio_preserves_csi (mf : Manifests) (options : ApplyInstallationYAMLOptions)
    (mf' : Manifests) (h : applyIstioCSRToInstallation mf options = Except.ok mf') :
    mf'.installation.spec.csiDrivers = mf.installation.spec.csiDrivers := by
  unfold applyIstioCSRToInstallation at h
  split at h <;> (simp only [Except.ok.injEq] at h; rw [← h])

/-- The CSI-driver step on a manifest with the field absent: assigned exactly
when some flag is set, with the sub-fields of the set flags. -/
theorem csi_step_sets (mf : Manifests) (options : ApplyInstallationYAMLOptions)
    (h : mf.installation.spec.csiDrivers = none) :
    (applyCSIDriversToInstallation mf options).installation.spec.csiDrivers =
      (if (options.InstallCSIDriver || options.InstallSpiffeCSIDriver) = true then
        some { certManager := if options.InstallCSIDriver then some () else none
               certManagerSpiffe :=
                 if options.InstallSpiffeCSIDriver then
                   some { replicaCount := some options.SpiffeCSIDriverReplicas }
                 else none }
      else none) := by
  unfold applyCSIDriversToInstallation
  by_cases ha : (options.InstallCSIDriver || options.InstallSpiffeCSIDriver) = true
  · simp [ha]
  · simp [ha, h]

/-- C1: the CSI-driver field of the built Installation manifest is entirely
absent iff both driver flags are false; when at least one flag is set the
field is present with exactly the sub-fields of the set flags, independently
(both may coexist). -/
theorem C1_csi_drivers (credFS : List (String × String))
    (options : ApplyInstallationYAMLOptions) (mf : Manifests)
    (h : buildInstallationManifests credFS options = Except.ok mf) :
    (mf.installation.spec.csiDrivers = none ↔
      options.InstallCSIDriver = false ∧ options.InstallSpiffeCSIDriver = false) ∧
    ((options.InstallCSIDriver = true ∨ options.InstallSpiffeCSIDriver = true) →
      mf.installation.spec.csiDrivers = some
        { certManager := if options.InstallCSIDriver then some () else none
          certManagerSpiffe :=
            if options.InstallSpiffeCSIDriver then
              some { replicaCount := some options.SpiffeCSIDriverReplicas }
            else none }) := by
  unfold buildInstallationManifests at h
  split at h
  · exact absurd h (by simp)
  next mf1 h1 =>
    split at h
    · exact absurd h (by simp)
    next mf5 h5 =>
      split at h
      · exact absurd h (by simp)
      next mf6 h6 =>
        simp only [Except.ok.injEq] at h
        subst h
        have hc1 : mf1.installation.spec.csiDrivers = none := by
          rw [istio_preserves_csi _ _ _ h1]; rfl
        have hmid :
            (applyCSIDriversToInstallation (applyCertManagerVersion mf1 options)
              options).installation.spec.csiDrivers =
            (if (options.InstallCSIDriver || options.InstallSpiffeCSIDriver) = true then
              some { certManager := if options.InstallCSIDriver then some () else none
                     certManagerSpiffe :=
                       if options.InstallSpiffeCSIDriver then
                         some { replicaCount := some options.SpiffeCSIDriverReplicas }
                       else none }
            else none) := by
          refine csi_step_sets _ _ ?_
          rw [certVer_preserves_csi]
          exact hc1
        have hfinal : mf6.installation.spec.csiDrivers =
            (applyCSIDriversToInstallation (applyCertManagerVersion mf1 options)
              options).installation.spec.csiDrivers := by
          rw [genIssuersFrom_preserves_csi _ _ _ h6,
            collect_preserves_installation _ _ _ _ h5, oauth_preserves_csi]
        rw [hfinal, hmid]
        cases hf1 : options.InstallCSIDriver <;> cases hf2 : options.InstallSpiffeCSIDriver <;>
          simp

/-- Witness for C1 with only the spiffe CSI driver enabled. -/
theorem C1_witness :
    ∃ mf, buildInstallationManifests credFixture
        { baseOptions with InstallSpiffeCSIDriver := true } = Except.ok mf ∧
      mf.installation.spec.csiDrivers = some
        { certManager := none
          certManagerSpiffe := some { replicaCount := some 1 } } := by
  obtain ⟨mf, hmf⟩ : ∃ mf, buildInstallationManifests credFixture
      { baseOptions with InstallSpiffeCSIDriver := true } = Except.ok mf := by
    cases hb : buildInstallationManifests credFixture
        { baseOptions with InstallSpiffeCSIDriver := true } with
    | error e =>
        have hok : (buildInstallationManifests credFixture
            { baseOptions with InstallSpiffeCSIDriver := true }).isOk = true := by decide
        rw [hb] at hok
        exact Bool.noConfusion hok
    | ok mf => exact ⟨mf, rfl⟩
  refine ⟨mf, hmf, ?_⟩
  have := (C1_csi_drivers credFixture
    { baseOptions with InstallSpiffeCSIDriver := true } mf hmf).2 (Or.inr rfl)
  simpa using this

/-- `lastOr` of a nonempty list is an element of it. -/
theorem lastOr_mem (l : List String) (d : String) (h : l ≠ []) : lastOr l d ∈ l := by
  induction l with
  | nil => exact absurd rfl h
  | cons a as ih =>
      cases as with
      | nil => simp [lastOr]
      | cons b bs =>
          simp only [lastOr]
          exact List.mem_cons_of_mem _ (ih (by simp))

/-- A successful `Versions` result is a list of `v`-prefixed canonical
version strings. -/
theorem versions_ok_shape (files : List String) (vs : List String)
    (h : Versions files = Except.ok vs) :
    ∃ parsed : List SemVer,
      vs = (parsed.insertionSort semverLe).map (fun v => "v" ++ v.str) := by
  unfold Versions at h
  cases hm : ((files.map trimYamlSuffix).mapM (fun rawVersion =>
      match semverParse rawVersion with
      | some v => Except.ok v
      | none => Except.error (GoErr.parseVersion rawVersion)) :
        Except GoErr (List SemVer)) with
  | error e =>
      simp only [hm] at h
      exact absurd h (by simp [Except.bind])
  | ok parsed =>
      simp only [hm] at h
      have h' : Except.ok ((parsed.insertionSort semverLe).map (fun v => "v" ++ v.str)) =
          Except.ok vs := h
      injection h' with h''
      exact ⟨parsed, h''.symm⟩

/-- A `v`-prefixed version string is never empty. -/
theorem vstr_ne_empty (v : SemVer) : ("v" ++ v.str) ≠ "" := by
  intro hcontra
  have h1 : ("v" ++ v.str).data = ("").data := congrArg String.data hcontra
  rw [String.data_append] at h1
  exact List.noConfusion h1

/-- C2: for every registry and credential setup, ApplyOperatorYAML with an
empty Version hands the applier the same byte stream as ApplyOperatorYAML
with Version equal to the highest (last) string returned by Versions; and
every non-empty Version whose file is not in the embedded catalog fails with
the "no manifest" error. -/
theorem C2_operator_version_selection (files credFS : List (String × String))
    (reg cred : String) (vs : List String)
    (hv : Versions (files.map Prod.fst) = Except.ok vs) (hne : vs ≠ []) :
    (∀ s, ApplyOperatorYAML files credFS
        { Version := "", ImageRegistry := reg, CredentialsLocation := cred } =
          Except.ok s ↔
      ApplyOperatorYAML files credFS
        { Version := lastOr vs (""), ImageRegistry := reg, CredentialsLocation := cred } =
          Except.ok s) ∧
    (∀ v, v ≠ "" → files.lookup (v ++ ".yaml") = none →
      ApplyOperatorYAML files credFS
        { Version := v, ImageRegistry := reg, CredentialsLocation := cred } =
        Except.error GoErr.noManifest) := by
  have hlast_ne : lastOr vs ("") ≠ "" := by
    obtain ⟨parsed, rfl⟩ := versions_ok_shape _ _ hv
    obtain ⟨v, _, he⟩ := List.mem_map.mp (lastOr_mem _ ("") hne)
    rw [← he]
    exact vstr_ne_empty v
  constructor
  · intro s
    have hl : latestManifest files = openFile files (lastOr vs ("") ++ ".yaml") := by
      unfold latestManifest
      simp only [hv]
      rfl
    cases ho : openFile files (lastOr vs ("") ++ ".yaml") with
    | ok c =>
        have hm : manifestVersion files (lastOr vs ("")) = Except.ok c := by
          unfold manifestVersion
          rw [ho]
        unfold ApplyOperatorYAML
        rw [hl]
        simp [ho, hm, hlast_ne]
    | error e =>
        obtain ⟨p, rfl⟩ : ∃ p, e = GoErr.notExist p := by
          unfold openFile at ho
          cases hlk : files.lookup (lastOr vs ("") ++ ".yaml") with
          | some c => rw [hlk] at ho; exact absurd ho (by simp)
          | none => rw [hlk] at ho; simp at ho; exact ⟨_, ho.symm⟩
        have hm : manifestVersion files (lastOr vs ("")) = Except.error GoErr.noManifest := by
          unfold manifestVersion
          rw [ho]
        unfold ApplyOperatorYAML
        rw [hl]
        simp only [ho, hm, hlast_ne, if_neg, reduceIte]
        constructor <;> (intro hcontra; exact Except.noConfusion hcontra)
  · intro v hv0 hlk
    have ho : openFile files (v ++ ".yaml") =
        Except.error (GoErr.notExist (v ++ ".yaml")) := by
      unfold openFile
      rw [hlk]
    have hm : manifestVersion files v = Except.error GoErr.noManifest := by
      unfold manifestVersion
      rw [ho]
    unfold ApplyOperatorYAML
    simp only [hm, hv0, if_neg, reduceIte]

/-- Witness for C2: the unknown version `v9.9.9` fails with the no-manifest
error on a one-entry catalog. -/
theorem C2_witness :
    ApplyOperatorYAML [("v1.0.0.yaml", "a: b\n")] [("cred", "K")]
      { Version := "v9.9.9", ImageRegistry := "r", CredentialsLocation := "cred" } =
      Except.error GoErr.noManifest :=
  (C2_operator_version_selection [("v1.0.0.yaml", "a: b\n")] [("cred", "K")] ("r") ("cred")
    ["v1.0.0"] (by decide) (by decide)).2 ("v9.9.9") (by decide) (by decide)

/-- The istio-csr step is the always-successful pure update `istioUpdate`. -/
theorem applyIstio_eq_ok (mf : Manifests) (options : ApplyInstallationYAMLOptions) :
    applyIstioCSRToInstallation mf options = Except.ok (istioUpdate options mf) := by
  unfold applyIstioCSRToInstallation istioUpdate istioValue
  cases h1 : options.InstallIstioCSR with
  | false => rfl
  | true =>
      by_cases h2 : options.IstioCSRIssuer = "" <;> simp [h1, h2]

/-- Issuer expansion commutes with any step that distributes over
`appendIssuerSecret`. -/
theorem genIssuersFrom_map_comm (ts : List VenafiIssuer) (p : Manifests → Manifests)
    (hp : ∀ m i s, p (appendIssuerSecret m i s) = appendIssuerSecret (p m) i s)
    (m : Manifests) :
    (genIssuersFrom ts m).map p = genIssuersFrom ts (p m) := by
  induction ts generalizing m with
  | nil => rfl
  | cons t rest ih =>
      simp only [genIssuersFrom]
      cases hg : GenerateOperatorManifestsForIssuer t with
      | error e => rfl
      | ok pr =>
          obtain ⟨i, s⟩ := pr
          rw [ih, hp]

/-- Pull-secret collection commutes with any step that distributes over
appending a collected secret. -/
theorem collect_map_comm (credFS : List (String × String))
    (options : ApplyInstallationYAMLOptions) (p : Manifests → Manifests)
    (hp : ∀ m s, p { m with secrets := m.secrets ++ [s] } =
      { p m with secrets := (p m).secrets ++ [s] })
    (mf : Manifests) :
    (collectImagePullSecret credFS mf options).map p =
      collectImagePullSecret credFS (p mf) options := by
  unfold collectImagePullSecret
  split
  · rfl
  · cases hs : ImagePullSecret credFS options.Credentials with
    | error e => rfl
    | ok s =>
        simp only [Except.map]
        rw [hp]

/-- The cert-manager-version and CSI-driver steps commute. -/
theorem certVer_csi_comm (o : ApplyInstallationYAMLOptions) (m : Manifests) :
    applyCertManagerVersion (applyCSIDriversToInstallation m o) o =
    applyCSIDriversToInstallation (applyCertManagerVersion m o) o := by
  unfold applyCertManagerVersion applyCSIDriversToInstallation
  by_cases h1 : o.CertManagerVersion = "" <;>
    by_cases h2 : (o.InstallCSIDriver || o.InstallSpiffeCSIDriver) = true <;>
      simp [h1, h2]

/-- The cert-manager-version and oauth-helper steps commute. -/
theorem certVer_oauth_comm (o : ApplyInstallationYAMLOptions) (m : Manifests) :
    applyCertManagerVersion (applyVenafiOauthHelperToInstallation m o) o =
    applyVenafiOauthHelperToInstallation (applyCertManagerVersion m o) o := by
  unfold applyCertManagerVersion applyVenafiOauthHelperToInstallation
  by_cases h1 : o.CertManagerVersion = "" <;>
    cases h2 : o.InstallVenafiOauthHelper <;> simp [h1, h2]

/-- The CSI-driver and oauth-helper steps commute. -/
theorem csi_oauth_comm (o : ApplyInstallationYAMLOptions) (m : Manifests) :
    applyCSIDriversToInstallation (applyVenafiOauthHelperToInstallation m o) o =
    applyVenafiOauthHelperToInstallation (applyCSIDriversToInstallation m o) o := by
  unfold applyCSIDriversToInstallation applyVenafiOauthHelperToInstallation
  by_cases h1 : (o.InstallCSIDriver || o.InstallSpiffeCSIDriver) = true <;>
    cases h2 : o.InstallVenafiOauthHelper <;> simp [h1, h2]

/-- The istio-csr update commutes with the cert-manager-version step. -/
theorem istioU_certVer_comm (o : ApplyInstallationYAMLOptions) (m : Manifests) :
    istioUpdate o (applyCertManagerVersion m o) =
    applyCertManagerVersion (istioUpdate o m) o := by
  unfold istioUpdate applyCertManagerVersion
  cases h1 : o.InstallIstioCSR <;> by_cases h2 : o.CertManagerVersion = "" <;>
    simp [h1, h2]

/-- The istio-csr update commutes with the CSI-driver step. -/
theorem istioU_csi_comm (o : ApplyInstallationYAMLOptions) (m : Manifests) :
    istioUpdate o (applyCSIDriversToInstallation m o) =
    applyCSIDriversToInstallation (istioUpdate o m) o := by
  unfold istioUpdate applyCSIDriversToInstallation
  cases h1 : o.InstallIstioCSR <;>
    by_cases h2 : (o.InstallCSIDriver || o.InstallSpiffeCSIDriver) = true <;>
      simp [h1, h2]

/-- The istio-csr update commutes with the oauth-helper step. -/
theorem istioU_oauth_comm (o : ApplyInstallationYAMLOptions) (m : Manifests) :
    istioUpdate o (applyVenafiOauthHelperToInstallation m o) =
    applyVenafiOauthHelperToInstallation (istioUpdate o m) o := by
  unfold istioUpdate applyVenafiOauthHelperToInstallation
  cases h1 : o.InstallIstioCSR <;> cases h2 : o.InstallVenafiOauthHelper <;>
    simp [h1, h2]

/-- The cert-manager-version step distributes over issuer/secret appending. -/
theorem certVer_append (o : ApplyInstallationYAMLOptions) :
    ∀ m i s, applyCertManagerVersion (appendIssuerSecret m i s) o =
      appendIssuerSecret (applyCertManagerVersion m o) i s := by
  intro m i s
  unfold applyCertManagerVersion appendIssuerSecret
  by_cases h1 : o.CertManagerVersion = "" <;> simp [h1]

/-- The CSI-driver step distributes over issuer/secret appending. -/
theorem csi_append (o : ApplyInstallationYAMLOptions) :
    ∀ m i s, applyCSIDriversToInstallation (appendIssuerSecret m i s) o =
      appendIssuerSecret (applyCSIDriversToInstallation m o) i s := by
  intro m i s
  unfold applyCSIDriversToInstallation appendIssuerSecret
  by_cases h1 : (o.InstallCSIDriver || o.InstallSpiffeCSIDriver) = true <;> simp [h1]

/-- The oauth-helper step distributes over issuer/secret appending. -/
theorem oauth_append (o : ApplyInstallationYAMLOptions) :
    ∀ m i s, applyVenafiOauthHelperToInstallation (appendIssuerSecret m i s) o =
      appendIssuerSecret (applyVenafiOauthHelperToInstallation m o) i s := by
  intro m i s
  unfold applyVenafiOauthHelperToInstallation appendIssuerSecret
  cases h1 : o.InstallVenafiOauthHelper <;> simp [h1]

/-- The istio-csr update distributes over issuer/secret appending. -/
theorem istioU_append (o : ApplyInstallationYAMLOptions) :
    ∀ m i s, istioUpdate o (appendIssuerSecret m i s) =
      appendIssuerSecret (istioUpdate o m) i s := by
  intro m i s
  unfold istioUpdate appendIssuerSecret
  cases h1 : o.InstallIstioCSR <;> simp [h1]

/-- The cert-manager-version step distributes over secret collection. -/
theorem certVer_secrets (o : ApplyInstallationYAMLOptions) :
    ∀ m s, applyCertManagerVersion { m with secrets := m.secrets ++ [s] } o =
      { applyCertManagerVersion m o with
        secrets := (applyCertManagerVersion m o).secrets ++ [s] } := by
  intro m s
  unfold applyCertManagerVersion
  by_cases h1 : o.CertManagerVersion = "" <;> simp [h1]

/-- The CSI-driver step distributes over secret collection. -/
theorem csi_secrets (o : ApplyInstallationYAMLOptions) :
    ∀ m s, applyCSIDriversToInstallation { m with secrets := m.secrets ++ [s] } o =
      { applyCSIDriversToInstallation m o with
        secrets := (applyCSIDriversToInstallation m o).secrets ++ [s] } := by
  intro m s
  unfold applyCSIDriversToInstallation
  by_cases h1 : (o.InstallCSIDriver || o.InstallSpiffeCSIDriver) = true <;> simp [h1]

/-- The oauth-helper step distributes over secret collection. -/
theorem oauth_secrets (o : ApplyInstallationYAMLOptions) :
    ∀ m s, applyVenafiOauthHelperToInstallation { m with secrets := m.secrets ++ [s] } o =
      { applyVenafiOauthHelperToInstallation m o with
        secrets := (applyVenafiOauthHelperToInstallation m o).secrets ++ [s] } := by
  intro m s
  unfold applyVenafiOauthHelperToInstallation
  cases h1 : o.InstallVenafiOauthHelper <;> simp [h1]

/-- The istio-csr update distributes over secret collection. -/
theorem istioU_secrets (o : ApplyInstallationYAMLOptions) :
    ∀ m s, istioUpdate o { m with secrets := m.secrets ++ [s] } =
      { istioUpdate o m with secrets := (istioUpdate o m).secrets ++ [s] } := by
  intro m s
  unfold istioUpdate
  cases h1 : o.InstallIstioCSR <;> simp [h1]

/-- C3 counterexample: with a credential path and one issuer template both
active, swapping pull-secret collection and issuer expansion changes the
result (the collected-secrets order differs), so the steps do not all
commute. -/
theorem C3_counterexample :
    buildPermutedManifests credFixture orderingOptions ≠
      buildInstallationManifests credFixture orderingOptions := by decide

/-- C3 (amended): the mutation steps of the installation builder commute
pairwise — except that pull-secret collection and issuer-template expansion
both append to the collected-secrets list, so their relative order matters;
every pair not consisting of those two steps commutes. -/
theorem C3_steps_commute_except_secret_order (credFS : List (String × String))
    (o : ApplyInstallationYAMLOptions) (m : Manifests) :
    (applyCertManagerVersion (applyCSIDriversToInstallation m o) o =
      applyCSIDriversToInstallation (applyCertManagerVersion m o) o) ∧
    (applyCertManagerVersion (applyVenafiOauthHelperToInstallation m o) o =
      applyVenafiOauthHelperToInstallation (applyCertManagerVersion m o) o) ∧
    (applyCSIDriversToInstallation (applyVenafiOauthHelperToInstallation m o) o =
      applyVenafiOauthHelperToInstallation (applyCSIDriversToInstallation m o) o) ∧
    ((applyIstioCSRToInstallation m o).map (applyCertManagerVersion · o) =
      applyIstioCSRToInstallation (applyCertManagerVersion m o) o) ∧
    ((applyIstioCSRToInstallation m o).map (applyCSIDriversToInstallation · o) =
      applyIstioCSRToInstallation (applyCSIDriversToInstallation m o) o) ∧
    ((applyIstioCSRToInstallation m o).map (applyVenafiOauthHelperToInstallation · o) =
      applyIstioCSRToInstallation (applyVenafiOauthHelperToInstallation m o) o) ∧
    ((applyIstioCSRToInstallation m o).bind
        (fun mf => collectImagePullSecret credFS mf o) =
      (collectImagePullSecret credFS m o).bind
        (fun mf => applyIstioCSRToInstallation mf o)) ∧
    ((applyIstioCSRToInstallation m o).bind
        (fun mf => generateVenafiIssuerManifests mf o) =
      (generateVenafiIssuerManifests m o).bind
        (fun mf => applyIstioCSRToInstallation mf o)) ∧
    ((collectImagePullSecret credFS m o).map (applyCertManagerVersion · o) =
      collectImagePullSecret credFS (applyCertManagerVersion m o) o) ∧
    ((collectImagePullSecret credFS m o).map (applyCSIDriversToInstallation · o) =
      collectImagePullSecret credFS (applyCSIDriversToInstallation m o) o) ∧
    ((collectImagePullSecret credFS m o).map (applyVenafiOauthHelperToInstallation · o) =
      collectImagePullSecret credFS (applyVenafiOauthHelperToInstallation m o) o) ∧
    ((generateVenafiIssuerManifests m o).map (applyCertManagerVersion · o) =
      generateVenafiIssuerManifests (applyCertManagerVersion m o) o) ∧
    ((generateVenafiIssuerManifests m o).map (applyCSIDriversToInstallation · o) =
      generateVenafiIssuerManifests (applyCSIDriversToInstallation m o) o) ∧
    ((generateVenafiIssuerManifests m o).map (applyVenafiOauthHelperToInstallation · o) =
      generateVenafiIssuerManifests (applyVenafiOauthHelperToInstallation m o) o) := by
  refine ⟨certVer_csi_comm o m, certVer_oauth_comm o m, csi_oauth_comm o m,
    ?_, ?_, ?_, ?_, ?_, ?_, ?_, ?_, ?_, ?_, ?_⟩
  · simp only [applyIstio_eq_ok, Except.map]
    exact congrArg _ (istioU_certVer_comm o m).symm
  · simp only [applyIstio_eq_ok, Except.map]
    exact congrArg _ (istioU_csi_comm o m).symm
  · simp only [applyIstio_eq_ok, Except.map]
    exact congrArg _ (istioU_oauth_comm o m).symm
  · simp only [applyIstio_eq_ok]
    rw [show (Except.bind (Except.ok (istioUpdate o m))
        (fun mf => collectImagePullSecret credFS mf o)) =
      collectImagePullSecret credFS (istioUpdate o m) o from rfl]
    rw [← collect_map_comm credFS o (istioUpdate o) (istioU_secrets o) m]
    cases collectImagePullSecret credFS m o <;> rfl
  · simp only [applyIstio_eq_ok, generateVenafiIssuerManifests]
    rw [show (Except.bind (Except.ok (istioUpdate o m))
        (fun mf => genIssuersFrom o.VenafiIssuers mf)) =
      genIssuersFrom o.VenafiIssuers (istioUpdate o m) from rfl]
    rw [← genIssuersFrom_map_comm o.VenafiIssuers (istioUpdate o) (istioU_append o) m]
    cases genIssuersFrom o.VenafiIssuers m <;> rfl
  · exact collect_map_comm credFS o _ (certVer_secrets o) m
  · exact collect_map_comm credFS o _ (csi_secrets o) m
  · exact collect_map_comm credFS o _ (oauth_secrets o) m
  · simp only [generateVenafiIssuerManifests]
    exact genIssuersFrom_map_comm o.VenafiIssuers _ (certVer_append o) m
  · simp only [generateVenafiIssuerManifests]
    exact genIssuersFrom_map_comm o.VenafiIssuers _ (csi_append o) m
  · simp only [generateVenafiIssuerManifests]
    exact genIssuersFrom_map_comm o.VenafiIssuers _ (oauth_append o) m

/-- If any issuer template fails to expand, the issuer loop fails. -/
theorem genIssuersFrom_err_of_fail (ts : List VenafiIssuer) (mf : Manifests)
    (h : ∃ t ∈ ts, (GenerateOperatorManifestsForIssuer t).isOk = false) :
    ∃ e, genIssuersFrom ts mf = Except.error e := by
  induction ts generalizing mf with
  | nil => obtain ⟨t, ht, _⟩ := h; exact absurd ht (List.not_mem_nil t)
  | cons t rest ih =>
      simp only [genIssuersFrom]
      cases hg : GenerateOperatorManifestsForIssuer t with
      | error e => exact ⟨_, rfl⟩
      | ok p =>
          obtain ⟨i, s⟩ := p
          refine ih _ ?_
          obtain ⟨t', ht', hf⟩ := h
          rcases List.mem_cons.mp ht' with rfl | hmem
          · rw [hg] at hf; exact absurd hf (by simp [Except.isOk, Except.toBool])
          · exact ⟨t', hmem, hf⟩

/-- If any issuer template fails to expand, the whole build fails. -/
theorem build_err_of_issuer_fail (credFS : List (String × String))
    (o : ApplyInstallationYAMLOptions)
    (h : ∃ t ∈ o.VenafiIssuers, (GenerateOperatorManifestsForIssuer t).isOk = false) :
    ∃ e, buildInstallationManifests credFS o = Except.error e := by
  unfold buildInstallationManifests
  simp only [applyIstio_eq_ok]
  cases hc : collectImagePullSecret credFS
      (applyVenafiOauthHelperToInstallation
        (applyCSIDriversToInstallation
          (applyCertManagerVersion
            (istioUpdate o { installation := initialInstallation o, secrets := [] }) o) o)
        o)
      o with
  | error e => simp only [hc]; exact ⟨_, rfl⟩
  | ok mf5 =>
      simp only [hc]
      obtain ⟨e, hg⟩ := genIssuersFrom_err_of_fail o.VenafiIssuers mf5 h
      simp only [generateVenafiIssuerManifests, hg]
      exact ⟨_, rfl⟩

/-- C4: ApplyInstallationYAML is atomic with respect to application — the
applier is invoked at most once, with the marshalled stream, and only after
every construction step succeeded; if construction fails (in particular if
any issuer expansion fails) the error is returned and the applier is never
invoked (the trace of applier invocations is empty). -/
theorem C4_atomic_application (credFS : List (String × String))
    (applierRes : String → Except GoErr Unit) (options : ApplyInstallationYAMLOptions) :
    ((ApplyInstallationYAML credFS applierRes options).2 = [] ∨
      ∃ mf, buildInstallationManifests credFS options = Except.ok mf ∧
        (ApplyInstallationYAML credFS applierRes options).2 = [marshalManifests mf] ∧
        (ApplyInstallationYAML credFS applierRes options).1 =
          applierRes (marshalManifests mf)) ∧
    (∀ e, buildInstallationManifests credFS options = Except.error e →
      ApplyInstallationYAML credFS applierRes options = (Except.error e, [])) ∧
    ((∃ t ∈ options.VenafiIssuers, (GenerateOperatorManifestsForIssuer t).isOk = false) →
      ∃ e, ApplyInstallationYAML credFS applierRes options = (Except.error e, [])) := by
  refine ⟨?_, ?_, ?_⟩
  · cases hb : buildInstallationManifests credFS options with
    | error e =>
        left
        unfold ApplyInstallationYAML
        rw [hb]
    | ok mf =>
        right
        refine ⟨mf, rfl, ?_, ?_⟩ <;> (unfold ApplyInstallationYAML; rw [hb])
  · intro e hb
    unfold ApplyInstallationYAML
    rw [hb]
  · intro h
    obtain ⟨e, hb⟩ := build_err_of_issuer_fail credFS options h
    exact ⟨e, by unfold ApplyInstallationYAML; rw [hb]⟩

/-- Witness for C4: a failing issuer template yields an error with an empty
applier-invocation trace. -/
theorem C4_witness :
    ∃ e, ApplyInstallationYAML credFixture (fun _ => Except.ok ()) failingIssuerOptions =
      (Except.error e, []) :=
  (C4_atomic_application credFixture (fun _ => Except.ok ()) failingIssuerOptions).2.2
    ⟨{ name := "x", valid := false }, by decide, by decide⟩

/-- Setting the registry distributes over secret collection. -/
theorem setReg_secrets (r : String) :
    ∀ m s, setRegistry r { m with secrets := m.secrets ++ [s] } =
      { setRegistry r m with secrets := (setRegistry r m).secrets ++ [s] } := by
  intro m s; rfl

/-- Setting the registry distributes over issuer/secret appending. -/
theorem setReg_append (r : String) :
    ∀ m i s, setRegistry r (appendIssuerSecret m i s) =
      appendIssuerSecret (setRegistry r m) i s := by
  intro m i s; rfl

/-- The cert-manager-version step commutes with setting the registry. -/
theorem certVer_setReg (o : ApplyInstallationYAMLOptions) (r : String) (m : Manifests) :
    applyCertManagerVersion (setRegistry r m) o =
      setRegistry r (applyCertManagerVersion m o) := by
  unfold applyCertManagerVersion setRegistry
  by_cases h1 : o.CertManagerVersion = "" <;> simp [h1]

/-- The CSI-driver step commutes with setting the registry. -/
theorem csi_setReg (o : ApplyInstallationYAMLOptions) (r : String) (m : Manifests) :
    applyCSIDriversToInstallation (setRegistry r m) o =
      setRegistry r (applyCSIDriversToInstallation m o) := by
  unfold applyCSIDriversToInstallation setRegistry
  by_cases h1 : (o.InstallCSIDriver || o.InstallSpiffeCSIDriver) = true <;> simp [h1]

/-- The oauth-helper step commutes with setting the registry. -/
theorem oauth_setReg (o : ApplyInstallationYAMLOptions) (r : String) (m : Manifests) :
    applyVenafiOauthHelperToInstallation (setRegistry r m) o =
      setRegistry r (applyVenafiOauthHelperToInstallation m o) := by
  unfold applyVenafiOauthHelperToInstallation setRegistry
  cases h1 : o.InstallVenafiOauthHelper <;> simp [h1]

/-- The istio-csr update commutes with setting the registry. -/
theorem istioU_setReg (o : ApplyInstallationYAMLOptions) (r : String) (m : Manifests) :
    istioUpdate o (setRegistry r m) = setRegistry r (istioUpdate o m) := by
  unfold istioUpdate setRegistry
  cases h1 : o.InstallIstioCSR <;> simp [h1]

/-- Overriding the image-registry option only re-points the registry field of
the built manifests: the build equals the plain build with the registry field
rewritten. -/
theorem build_setRegistry (credFS : List (String × String))
    (o : ApplyInstallationYAMLOptions) (r : String) :
    buildInstallationManifests credFS { o with ImageRegistry := r } =
    (buildInstallationManifests credFS o).map (setRegistry r) := by
  unfold buildInstallationManifests
  simp only [applyIstio_eq_ok]
  have hcol : collectImagePullSecret credFS
      (applyVenafiOauthHelperToInstallation
        (applyCSIDriversToInstallation
          (applyCertManagerVersion
            (istioUpdate { o with ImageRegistry := r }
              { installation := initialInstallation { o with ImageRegistry := r },
                secrets := [] })
            { o with ImageRegistry := r })
          { o with ImageRegistry := r })
        { o with ImageRegistry := r })
      { o with ImageRegistry := r } =
    (collectImagePullSecret credFS
      (applyVenafiOauthHelperToInstallation
        (applyCSIDriversToInstallation
          (applyCertManagerVersion
            (istioUpdate o { installation := initialInstallation o, secrets := [] }) o)
          o)
        o)
      o).map (setRegistry r) := by
    show collectImagePullSecret credFS
      (applyVenafiOauthHelperToInstallation
        (applyCSIDriversToInstallation
          (applyCertManagerVersion
            (istioUpdate o
              (setRegistry r { installation := initialInstallation o, secrets := [] }))
            o)
          o)
        o)
      o = _
    rw [istioU_setReg, certVer_setReg, csi_setReg, oauth_setReg,
      ← collect_map_comm credFS o (setRegistry r) (setReg_secrets r)]
  rw [hcol]
  cases hx : collectImagePullSecret credFS
      (applyVenafiOauthHelperToInstallation
        (applyCSIDriversToInstallation
          (applyCertManagerVersion
            (istioUpdate o { installation := initialInstallation o, secrets := [] }) o)
          o)
        o)
      o with
  | error e => rfl
  | ok mf5 =>
      simp only [Except.map]
      have hgen : generateVenafiIssuerManifests (setRegistry r mf5)
          { o with ImageRegistry := r } =
          (generateVenafiIssuerManifests mf5 o).map (setRegistry r) := by
        show genIssuersFrom o.VenafiIssuers (setRegistry r mf5) = _
        rw [← genIssuersFrom_map_comm o.VenafiIssuers (setRegistry r) (setReg_append r) mf5]
        rfl
      rw [hgen]
      cases hg : generateVenafiIssuerManifests mf5 o <;> simp [Except.map]

/-- C9: the docker-config inside the secret produced by ImagePullSecret has
exactly one auths entry, keyed by the hard-coded host "eu.gcr.io", with the
fixed email; and the ImageRegistry option cannot change the produced secrets
of the installation build. -/
theorem C9_fixed_registry_host (credFS : List (String × String)) (loc : String)
    (o : ApplyInstallationYAMLOptions) (r₁ r₂ : String) :
    (∀ s, ImagePullSecret credFS loc = Except.ok s →
      ∃ contents, credFS.lookup loc = some contents ∧
        s.data = [(".dockerconfigjson", jsonMarshalConfig (pullSecretConfig contents))] ∧
        (pullSecretConfig contents).auths.map Prod.fst = ["eu.gcr.io"] ∧
        ∀ entry ∈ (pullSecretConfig contents).auths, entry.2.email = "auth@jetstack.io") ∧
    ((buildInstallationManifests credFS { o with ImageRegistry := r₁ }).map
        Manifests.secrets =
      (buildInstallationManifests credFS { o with ImageRegistry := r₂ }).map
        Manifests.secrets) := by
  constructor
  · intro s hs
    cases hlk : credFS.lookup loc with
    | none =>
        unfold ImagePullSecret at hs
        rw [hlk] at hs
        exact absurd hs (by simp)
    | some contents =>
        rw [ImagePullSecret_eq credFS loc contents hlk] at hs
        injection hs with hs'
        refine ⟨contents, rfl, ?_, rfl, ?_⟩
        · rw [← hs']; rfl
        · intro entry he
          simp [pullSecretConfig] at he
          rw [he]
  · rw [build_setRegistry credFS o r₁, build_setRegistry credFS o r₂]
    cases buildInstallationManifests credFS o <;> rfl

/-- Witness for C9 at a concrete credential file. -/
theorem C9_witness :
    ∃ contents, ([("k", "A")] : List (String × String)).lookup ("k") = some contents ∧
      (pullSecretFor ("A")).data =
        [(".dockerconfigjson", jsonMarshalConfig (pullSecretConfig contents))] ∧
      (pullSecretConfig contents).auths.map Prod.fst = ["eu.gcr.io"] ∧
      ∀ entry ∈ (pullSecretConfig contents).auths, entry.2.email = "auth@jetstack.io" :=
  (C9_fixed_registry_host [("k", "A")] ("k") baseOptions ("r1") ("r2")).1
    (pullSecretFor ("A")) (ImagePullSecret_eq [("k", "A")] ("k") ("A") (by decide))

/-- Base64 output characters are never an opening brace. -/
theorem b64Char_ne_lbrace (n : Nat) : b64Char n ≠ lbrace := by
  unfold b64Char
  by_cases h : n < b64Alphabet.length
  · rw [List.getD_eq_getElem _ _ h]
    intro hc
    have hmem : lbrace ∈ b64Alphabet := hc ▸ List.getElem_mem h
    exact absurd hmem (by decide)
  · rw [List.getD_eq_default _ _ (Nat.le_of_not_lt h)]
    decide

/-- Base64-encoded byte streams contain no opening brace. -/
theorem base64Chunks_no_lbrace : ∀ bs, lbrace ∉ base64Chunks bs
  | [] => by simp [base64Chunks]
  | [b1] => by
      intro h
      simp [base64Chunks] at h
      rcases h with h | h | h
      · exact b64Char_ne_lbrace _ h.symm
      · exact b64Char_ne_lbrace _ h.symm
      · exact absurd h (by decide)
  | [b1, b2] => by
      intro h
      simp [base64Chunks] at h
      rcases h with h | h | h | h
      · exact b64Char_ne_lbrace _ h.symm
      · exact b64Char_ne_lbrace _ h.symm
      · exact b64Char_ne_lbrace _ h.symm
      · exact absurd h (by decide)
  | b1 :: b2 :: b3 :: rest => by
      intro h
      simp only [base64Chunks, List.mem_cons] at h
      rcases h with h | h | h | h | h
      · exact b64Char_ne_lbrace _ h.symm
      · exact b64Char_ne_lbrace _ h.symm
      · exact b64Char_ne_lbrace _ h.symm
      · exact b64Char_ne_lbrace _ h.symm
      · exact base64Chunks_no_lbrace rest h

/-- Literal text without an opening brace renders to itself. -/
theorem renderChars_lit_nobrace (reg : String) (l : List Char) (h : lbrace ∉ l) :
    renderChars reg RMode.lit l = Except.ok l := by
  induction l with
  | nil => rfl
  | cons c rest ih =>
      have hc : ¬ c = lbrace := fun hcc => h (hcc ▸ List.mem_cons_self c rest)
      have hrest : lbrace ∉ rest := fun hm => h (List.mem_cons_of_mem c hm)
      simp only [renderChars]
      rw [if_neg hc, ih hrest]
      rfl

/-- A brace-free prefix passes through the renderer unchanged. -/
theorem renderChars_lit_append (reg : String) (xs ys : List Char) (h : lbrace ∉ xs) :
    renderChars reg RMode.lit (xs ++ ys) =
      (renderChars reg RMode.lit ys).map (fun out => xs ++ out) := by
  induction xs with
  | nil =>
      simp only [List.nil_append]
      cases renderChars reg RMode.lit ys <;> rfl
  | cons c rest ih =>
      have hc : ¬ c = lbrace := fun hcc => h (hcc ▸ List.mem_cons_self c rest)
      have hrest : lbrace ∉ rest := fun hm => h (List.mem_cons_of_mem c hm)
      simp only [List.cons_append, renderChars, List.append_eq]
      rw [if_neg hc, ih hrest]
      cases renderChars reg RMode.lit ys <;> rfl

/-- A close-brace-free body segment is accumulated into the action body. -/
theorem renderChars_act_append (reg : String) (acc bs ys : List Char)
    (h : rbrace ∉ bs) :
    renderChars reg (RMode.act acc) (bs ++ ys) =
      renderChars reg (RMode.act (acc ++ bs)) ys := by
  induction bs generalizing acc with
  | nil => simp
  | cons c rest ih =>
      have hc : ¬ c = rbrace := fun hcc => h (hcc ▸ List.mem_cons_self c rest)
      have hrest : rbrace ∉ rest := fun hm => h (List.mem_cons_of_mem c hm)
      simp only [List.cons_append, renderChars, List.append_eq]
      rw [if_neg hc, ih (acc ++ [c]) hrest, List.append_assoc]
      rfl

/-- Opening an action. -/
theorem renderChars_open (reg : String) (rest : List Char) :
    renderChars reg RMode.lit (lbrace :: lbrace :: rest) =
      renderChars reg (RMode.act []) rest := by
  simp [renderChars]

/-- Closing a well-formed registry action substitutes the registry. -/
theorem renderChars_close (reg : String) (body rest : List Char)
    (hbody : charsTrim body = ((".ImageRegistry").data)) :
    renderChars reg (RMode.act body) (rbrace :: rbrace :: rest) =
      (renderChars reg RMode.lit rest).map (fun out => reg.data ++ out) := by
  simp [renderChars, hbody]

/-- Rendering the fixture installer followed by any brace-free tail:
the action is substituted and the tail passes through. -/
theorem renderStream (reg : String) (tail : List Char) (htail : lbrace ∉ tail) :
    renderChars reg RMode.lit (installerYAML.data ++ tail) =
      Except.ok (("image: ").data ++ (reg.data ++ ((("/operator\n").data ++ tail)))) := by
  have hdecomp : installerYAML.data ++ tail =
      ("image: ").data ++ (lbrace :: lbrace :: ((" .ImageRegistry ").data ++
        (rbrace :: rbrace :: (("/operator\n").data ++ tail)))) := rfl
  rw [hdecomp]
  rw [renderChars_lit_append reg _ _ (by decide)]
  rw [renderChars_open]
  rw [renderChars_act_append reg [] _ _ (by decide)]
  rw [renderChars_close reg _ _ (by decide)]
  rw [renderChars_lit_nobrace reg _ ?_]
  · rfl
  · intro hm
    rcases List.mem_append.mp hm with hm' | hm'
    · exact absurd hm' (by decide)
    · exact htail hm'

/-- The marshalled pull secret contains no opening brace: every credential
byte appears only inside base64-encoded data. -/
theorem yamlSecret_no_lbrace (content : String) :
    lbrace ∉ (yamlMarshalSecret (pullSecretFor content)).data := by
  unfold yamlMarshalSecret pullSecretFor
  simp only [List.map_cons, List.map_nil, concatStrings, String.data_append,
    List.mem_append, not_or]
  repeat' apply And.intro
  all_goals first
    | decide
    | exact base64Chunks_no_lbrace _

set_option maxHeartbeats 1000000 in
/-- For every registry and credential content, the fixture ApplyOperatorYAML
succeeds, handing the applier the rendered stream. -/
theorem applyOperator_content_ok (reg content : String) :
    ApplyOperatorYAML installerFiles [("cred", content)] (braceOptions reg) =
    Except.ok (String.mk (("image: ").data ++ (reg.data ++ ((("/operator\n").data ++
      (("---\n").data ++ (yamlMarshalSecret (pullSecretFor content)).data)))))) := by
  have htail : lbrace ∉ ("---\n").data ++ (yamlMarshalSecret (pullSecretFor content)).data := by
    intro hm
    rcases List.mem_append.mp hm with hm' | hm'
    · exact absurd hm' (by decide)
    · exact yamlSecret_no_lbrace content hm'
  have hfile : (if (braceOptions reg).Version = ""
      then latestManifest installerFiles
      else manifestVersion installerFiles (braceOptions reg).Version) =
      Except.ok installerYAML := rfl
  have hsec : ImagePullSecret [("cred", content)] (braceOptions reg).CredentialsLocation =
      Except.ok (pullSecretFor content) :=
    ImagePullSecret_eq _ _ _ rfl
  unfold ApplyOperatorYAML
  simp only [hfile, hsec]
  unfold templateRender
  rw [String.data_append, String.data_append, List.append_assoc,
    renderStream _ _ htail]
  rfl

/-- C10 counterexample: credential content consisting of a template action
opener does not make ApplyOperatorYAML fail — and no credential content can,
because the secret document carries the credentials base64-encoded. -/
theorem C10_counterexample :
    (ApplyOperatorYAML installerFiles [("cred", braceContent)]
      (braceOptions ("example.com"))).isOk = true ∧
    ¬ ∃ content : String,
        (ApplyOperatorYAML installerFiles [("cred", content)]
          (braceOptions ("example.com"))).isOk = false := by
  constructor
  · rw [applyOperator_content_ok ("example.com") braceContent]
    rfl
  · rintro ⟨content, hc⟩
    rw [applyOperator_content_ok ("example.com") content] at hc
    exact absurd hc (by simp [Except.isOk, Except.toBool])

/-- C10 (amended): ApplyOperatorYAML parses the whole concatenated stream —
installer template plus marshalled pull secret — as one Go template, but no
credential-file content can cause a template error: the credentials appear in
the stream only base64-encoded, so for every registry and readable credential
content the call succeeds and the applier is invoked. -/
theorem C10_base64_shields_template (reg content : String) :
    (ApplyOperatorYAML installerFiles [("cred", content)]
      (braceOptions reg)).isOk = true := by
  rw [applyOperator_content_ok reg content]
  rfl

end Operator
